import Mathlib

/-!
Verification of the product-tagger reconciliation procedure.

The development shallowly embeds the core of `product-tagger.js`:
the title sanitizer (`cleanAndEscape`), the catalog matcher
(`findProduct`), the tag updater (`updateProductTags`), the row
normalizer used while parsing the tabular input, the reconciliation
driver loop (`processTopProducts`), and the report emitter
(`generateReports`).  Remote interactions are modelled by passing the
response of each remote call as an explicit parameter.
-/

namespace ProductTagger

/-- The marker tag, `TAG_NAME` in the source. -/
def tagName : String := "api-top-seller"

/-- Single-quote character, written numerically. -/
def squote : Char := Char.ofNat 39

/-- Double-quote character, written numerically. -/
def dquote : Char := Char.ofNat 34

/-- Backslash character, written numerically. -/
def bslash : Char := Char.ofNat 92

/-- Whitespace trimming from both ends, the JavaScript
`String.prototype.trim` (and the `trim: true` option of the CSV
parser). -/
def jsTrim (s : String) : String :=
  String.mk (((s.data.dropWhile Char.isWhitespace).reverse.dropWhile
    Char.isWhitespace).reverse)

/-- Character-wise lowercasing, the JavaScript
`String.prototype.toLowerCase` on the ASCII headers involved. -/
def lowerAscii (s : String) : String :=
  String.mk (s.data.map Char.toLower)

/-- Prefix check over character lists. -/
def isPrefixL : List Char → List Char → Bool
  | [], _ => true
  | _ :: _, [] => false
  | a :: as, b :: bs => a == b && isPrefixL as bs

/-- Contiguous-substring check over character lists. -/
def hasInfixL (sub : List Char) : List Char → Bool
  | [] => isPrefixL sub []
  | c :: rest => isPrefixL sub (c :: rest) || hasInfixL sub rest

/-- Substring test mirroring the JavaScript `String.prototype.includes`. -/
def containsSub (hay sub : String) : Bool :=
  hasInfixL sub.data hay.data

/-- A normalized input row: `{title, vendor, productType}` as pushed onto
`products` by the CSV `data` handler. -/
structure SourceRow where
  title : String
  vendor : String
  productType : String
deriving Repr, DecidableEq

/-- A catalog entry as returned by the search operation.  The `tags` field
is `some ts` when the JavaScript value is an array and `none` when it is
any non-array value (the updater guards with `Array.isArray`). -/
structure CatalogEntry where
  id : String
  title : String
  vendor : String
  productType : String
  tags : Option (List String)
deriving Repr, DecidableEq

/-- One global replacement of character `c` by the two-character sequence
backslash-`c`, the effect of one `.replace(/c/g, ...)` step of
`cleanAndEscape`. -/
def escapeChar (c : Char) (s : List Char) : List Char :=
  s.flatMap (fun x => if x = c then [bslash, x] else [x])

/-- `cleanAndEscape` from `findProduct`: escapes single quotes, then double
quotes, then backslashes, then trims — in exactly the source order. -/
def cleanAndEscape (str : String) : String :=
  jsTrim (String.mk (escapeChar bslash (escapeChar dquote (escapeChar squote str.data))))

/-- Deserialization of a backslash-escaped string: each backslash-`c`
pair denotes the literal character `c`. -/
def unescapeChars : List Char → List Char
  | [] => []
  | c :: rest =>
    if c = bslash then
      match rest with
      | [] => [c]
      | d :: rest2 => d :: unescapeChars rest2
    else c :: unescapeChars rest

/-- Deserialize a query-embedded string back to its literal characters. -/
def unescape (s : String) : String :=
  String.mk (unescapeChars s.data)

/-- The exact-match filter of `findProduct`: byte-exact title, trimmed
vendor, trimmed productType. -/
def exactMatch (title vendor productType : String) (p : CatalogEntry) : Bool :=
  p.title == title && jsTrim p.vendor == jsTrim vendor
    && jsTrim p.productType == jsTrim productType

/-- `findProduct` from the source.  The search response is passed in:
`Except.error` models a rejected request (transport or protocol error,
caught by the `catch` block), `Except.ok edges` the list of product
nodes.  Returns `some entry` for a match and `none` for not-found. -/
def findProduct (title vendor productType : String)
    (response : Except String (List CatalogEntry)) : Option CatalogEntry :=
  match response with
  | .error _ => none
  | .ok edges =>
    if edges.length > 0 then
      match edges.filter (exactMatch title vendor productType) with
      | m :: _ => some m
      | [] => none
    else none

/-- Response of the catalog update mutation: a transport-level failure, or
an accepted request carrying the `userErrors` message list. -/
inductive UpdateResponse where
  | transportError (message : String)
  | accepted (userErrors : List String)
deriving Repr, DecidableEq

/-- Result of one `updateProductTags` call: the state of the in-memory
entry of the caller after the call (the source pushes onto `product.tags` in
place when it is an array), the full tag set sent to the service, and the
boolean the function returns. -/
structure UpdateResult where
  entry : CatalogEntry
  sentTags : List String
  success : Bool
deriving Repr, DecidableEq

/-- `updateProductTags` from the source.  `currentTags` starts as the
tags of the entry when they are an array and as a fresh empty array otherwise;
the marker tag is pushed when absent (mutating the entry in the array
case); the full set is sent; the call reports success exactly when the
request is accepted with an empty `userErrors` list. -/
def updateProductTags (product : CatalogEntry) (resp : UpdateResponse) : UpdateResult :=
  let currentTags0 := product.tags.getD []
  let currentTags :=
    if currentTags0.contains tagName then currentTags0 else currentTags0 ++ [tagName]
  let entry :=
    match product.tags with
    | some _ => { product with tags := some currentTags }
    | none => product
  let success :=
    match resp with
    | .accepted [] => true
    | .accepted (_ :: _) => false
    | .transportError _ => false
  ⟨entry, currentTags, success⟩

/-- Resolution of one field of a parsed record: the parser is configured
with `trim: true`, so header and cell text reach the handler trimmed; the
key is the first header whose lowercasing contains the keyword as a
substring, and the located value is the cell under that header. -/
def locateValue (record : List (String × String)) (sub : String) : Option String :=
  ((record.map (fun kv => (jsTrim kv.1, jsTrim kv.2))).find?
    (fun kv => containsSub (lowerAscii kv.1) sub)).map Prod.snd

/-- Row normalization from the `data` handler of `processTopProducts`:
each of the three keys is resolved independently by `locateValue`; the
row yields a product only when all three resolved values are non-empty
strings, and the product carries the values trimmed once more. -/
def normalizeRow (record : List (String × String)) : Option SourceRow :=
  match locateValue record "title", locateValue record "vendor",
      locateValue record "type" with
  | some title, some vendor, some productType =>
    if title != "" && vendor != "" && productType != "" then
      some ⟨jsTrim title, jsTrim vendor, jsTrim productType⟩
    else
      none
  | _, _, _ => none

/-- The SourceRows derived from the parsed records: rows failing
normalization are skipped and never reach the driver loop. -/
def deriveRows (records : List (List (String × String))) : List SourceRow :=
  records.filterMap normalizeRow

/-- Environment for one driver iteration: either the processing of the
row raises a JavaScript exception (exercising the driver-level `catch`),
or it runs normally with the given search and update responses. -/
inductive RowEnv where
  | throws (message : String)
  | normal (search : Except String (List CatalogEntry)) (update : UpdateResponse)
deriving Repr

/-- Whether a row environment is the throwing one. -/
def RowEnv.isThrow : RowEnv → Bool
  | .throws _ => true
  | .normal _ _ => false

/-- Terminal state of one row of the driver loop. -/
inductive Outcome where
  | tagged (entry : CatalogEntry)
  | tagFailed
  | notFound
  | errored
deriving Repr, DecidableEq

/-- The terminal state the driver body reaches for one row, composed
exactly as in the source: match, then (when matched) tag update; the
entry recorded on success is the matched product after the in-place tag
push. -/
def rowOutcome (product : SourceRow) (env : RowEnv) : Outcome :=
  match env with
  | .throws _ => .errored
  | .normal search update =>
    match findProduct product.title product.vendor product.productType search with
    | some shopifyProduct =>
      let r := updateProductTags shopifyProduct update
      if r.success then .tagged r.entry else .tagFailed
    | none => .notFound

/-- The two append-only ledgers accumulated by the driver:
`successfullyTagged` and `notFound` in the source. -/
structure Ledger where
  tagged : List (CatalogEntry × SourceRow)
  notFound : List SourceRow
deriving Repr, DecidableEq

/-- Observable scheduling events of the driver loop: `work i` marks row
`i` reaching its terminal state, `pause` the pacing delay awaited via
`setTimeout(RATE_LIMIT_DELAY)`. -/
inductive Ev where
  | work (i : Nat)
  | pause
deriving Repr, DecidableEq

/-- One driver iteration: ledger routing and emitted events.  On the
tagged outcome the pair (entry, original row) is appended to `tagged`;
on the not-found outcome the row is appended to `notFound`; on a tag
failure nothing is appended; the pacing delay runs at the end of the
`try` block, hence only on non-throwing iterations — the `catch` branch
appends the row to `notFound` and reaches the next iteration without
delaying. -/
def driverStep (i : Nat) (ledger : Ledger) (product : SourceRow) (env : RowEnv) :
    Ledger × List Ev :=
  match rowOutcome product env with
  | .tagged entry =>
    ({ ledger with tagged := ledger.tagged ++ [(entry, product)] }, [.work i, .pause])
  | .tagFailed => (ledger, [.work i, .pause])
  | .notFound =>
    ({ ledger with notFound := ledger.notFound ++ [product] }, [.work i, .pause])
  | .errored =>
    ({ ledger with notFound := ledger.notFound ++ [product] }, [.work i])

/-- The driver loop of `processTopProducts` over already-normalized rows,
threading the ledger and concatenating the event trace. -/
def runDriverFrom (i : Nat) (ledger : Ledger) :
    List (SourceRow × RowEnv) → Ledger × List Ev
  | [] => (ledger, [])
  | (product, env) :: rest =>
    let (l1, t1) := driverStep i ledger product env
    let (l2, t2) := runDriverFrom (i + 1) l1 rest
    (l2, t1 ++ t2)

/-- The whole reconciliation run on normalized rows paired with their
row environments. -/
def runDriver (items : List (SourceRow × RowEnv)) : Ledger × List Ev :=
  runDriverFrom 0 ⟨[], []⟩ items

/-- A row of either report table. -/
structure ReportRow where
  gid : String
  title : String
  productType : String
  vendor : String
deriving Repr, DecidableEq

/-- First-occurrence replacement by the empty string, the effect of the
JavaScript `id.replace(pat, "")` with a string pattern. -/
def replaceFirstAux (pat : List Char) : List Char → List Char
  | [] => []
  | c :: rest =>
    if isPrefixL pat (c :: rest) then (c :: rest).drop pat.length
    else c :: replaceFirstAux pat rest

/-- `s.replace(pat, "")` for a string pattern: removes the first
occurrence of `pat`, if any. -/
def replaceFirst (s pat : String) : String :=
  String.mk (replaceFirstAux pat.data s.data)

/-- The service-specific identifier prefix stripped in the tagged
report. -/
def gidPrefix : String := "gid://shopify/Product/"

/-- `generateReports` from the source, with file writing modelled by the
optional report tables: `none` means the corresponding file is not
written at all.  The tagged table draws every field from the catalog
entry and strips the identifier prefix; the not-found table draws its
fields from the source row with an empty `gid`. -/
def generateReports (taggedProducts : List (CatalogEntry × SourceRow))
    (notFoundProducts : List SourceRow) :
    Option (List ReportRow) × Option (List ReportRow) :=
  let successReport :=
    if taggedProducts.length > 0 then
      some (taggedProducts.map (fun pr =>
        { gid := replaceFirst pr.1.id gidPrefix
          title := pr.1.title
          productType := pr.1.productType
          vendor := pr.1.vendor }))
    else none
  let notFoundReport :=
    if notFoundProducts.length > 0 then
      some (notFoundProducts.map (fun product =>
        { gid := ""
          title := product.title
          productType := product.productType
          vendor := product.vendor }))
    else none
  (successReport, notFoundReport)

/-! ## Theorems -/

/-- Claim C2, counterexample: `cleanAndEscape` escapes the quotes before
the backslashes, so the backslash inserted for the double quote in
`a"b` is itself escaped and deserialization does not recover the
original title. -/
theorem cleanAndEscape_double_escapes :
    cleanAndEscape "a\"b" = "a\\\\\"b" ∧
    unescape (cleanAndEscape "a\"b") ≠ "a\"b" := by
  refine ⟨rfl, ?_⟩
  decide

/-- Claim C5: a transport or protocol error of the search call is caught
inside `findProduct` and yields the not-found result; `findProduct` is a
total function into `Option`, so no exception reaches the driver. -/
theorem findProduct_error_isNotFound (title vendor productType message : String) :
    findProduct title vendor productType (Except.error message) = none := rfl

/-- Claim C10: header resolution is independent per field, so one header
containing both keywords is selected for `title` and for `type` at once
and the resulting row carries the same cell value in both fields. -/
theorem normalizeRow_shared_header :
    normalizeRow [("Product Title Type", "X"), ("Vendor", "V")] =
      some ⟨"X", "V", "X"⟩ := rfl

/-- Claim C3: the exact filter of `findProduct` is a strict conjunction —
a returned match agrees with the inputs on byte-exact title and trimmed
vendor and productType, and when no candidate satisfies all three
equalities the result is not-found even for a non-empty response. -/
theorem findProduct_exact_filter (title vendor productType : String)
    (edges : List CatalogEntry) :
    (∀ e, findProduct title vendor productType (Except.ok edges) = some e →
      e ∈ edges ∧ e.title = title ∧ jsTrim e.vendor = jsTrim vendor ∧
        jsTrim e.productType = jsTrim productType) ∧
    ((∀ p ∈ edges, ¬(p.title = title ∧ jsTrim p.vendor = jsTrim vendor ∧
        jsTrim p.productType = jsTrim productType)) →
      findProduct title vendor productType (Except.ok edges) = none) := by
  constructor
  · intro e he
    have hmem : e ∈ edges.filter (exactMatch title vendor productType) := by
      simp only [findProduct] at he
      rcases edges with _ | ⟨a, rest⟩
      · simp at he
      · rw [if_pos (by simp)] at he
        rcases hf : (a :: rest).filter (exactMatch title vendor productType)
          with _ | ⟨m, ms⟩
        · rw [hf] at he
          cases he
        · rw [hf] at he
          have hme : m = e := by
            injection he
          rw [← hme]
          exact List.mem_cons_self m ms
    have hmem2 := List.mem_filter.mp hmem
    refine ⟨hmem2.1, ?_⟩
    have hb := hmem2.2
    simp only [exactMatch, Bool.and_eq_true, beq_iff_eq] at hb
    exact ⟨hb.1.1, hb.1.2, hb.2⟩
  · intro hall
    have hfil : edges.filter (exactMatch title vendor productType) = [] := by
      rw [List.filter_eq_nil_iff]
      intro p hp
      have hnp := hall p hp
      simp only [exactMatch, Bool.and_eq_true, beq_iff_eq]
      intro hc
      exact hnp ⟨hc.1.1, hc.1.2, hc.2⟩
    simp only [findProduct]
    rcases edges with _ | ⟨a, rest⟩
    · simp
    · simp [hfil]

/-- Claim C3, witness: a candidate matching on title and vendor but not
on productType is excluded, so the matcher reports not-found despite the
non-empty response. -/
theorem findProduct_exact_filter_witness :
    findProduct "Red Mug" "Acme" "Cup"
      (Except.ok [⟨"id1", "Red Mug", "Acme", "Mug", some []⟩]) = none :=
  (findProduct_exact_filter "Red Mug" "Acme" "Cup"
    [⟨"id1", "Red Mug", "Acme", "Mug", some []⟩]).2 (by decide)

/-- The tag set sent twice is unchanged: appending the marker makes a
later `includes` test succeed. -/
lemma contains_append_tagName (ts : List String) :
    (ts ++ [tagName]).contains tagName = true := by
  simp [List.elem_eq_mem]

/-- Characterization of the updated in-memory entry when the tag value
is an array. -/
lemma updEntry (pid t v pp : String) (ts : List String) (resp : UpdateResponse) :
    (updateProductTags ⟨pid, t, v, pp, some ts⟩ resp).entry =
      ⟨pid, t, v, pp,
        some (if ts.contains tagName then ts else ts ++ [tagName])⟩ := rfl

/-- Characterization of the sent tag set when the tag value is an
array. -/
lemma updSent (pid t v pp : String) (ts : List String) (resp : UpdateResponse) :
    (updateProductTags ⟨pid, t, v, pp, some ts⟩ resp).sentTags =
      (if ts.contains tagName then ts else ts ++ [tagName]) := rfl

/-- An accepted update with no validation errors reports success. -/
lemma updSuccess (p : CatalogEntry) :
    (updateProductTags p (UpdateResponse.accepted [])).success = true := rfl

/-- Claim C4: tag updating is idempotent — when the marker is already in
the tag set of the entry nothing changes, otherwise it is appended exactly
once; running `updateProductTags` a second time on the updated entry
sends the same tag set and leaves the entry unchanged, and both calls
report success whenever their requests are accepted without
`userErrors`. -/
theorem updateProductTags_idempotent (product : CatalogEntry)
    (resp1 resp2 : UpdateResponse) :
    (∀ ts, product.tags = some ts → ts.contains tagName = true →
      (updateProductTags product resp1).entry = product) ∧
    (∀ ts, product.tags = some ts → ts.contains tagName = false →
      (updateProductTags product resp1).entry.tags = some (ts ++ [tagName])) ∧
    (updateProductTags (updateProductTags product resp1).entry resp2).sentTags =
      (updateProductTags product resp1).sentTags ∧
    (updateProductTags (updateProductTags product resp1).entry resp2).entry =
      (updateProductTags product resp1).entry ∧
    (resp1 = UpdateResponse.accepted [] →
      (updateProductTags product resp1).success = true) ∧
    (resp2 = UpdateResponse.accepted [] →
      (updateProductTags (updateProductTags product resp1).entry resp2).success
        = true) := by
  have hs1 : resp1 = UpdateResponse.accepted [] →
      (updateProductTags product resp1).success = true := by
    intro h
    subst h
    exact updSuccess product
  have hs2 : resp2 = UpdateResponse.accepted [] →
      (updateProductTags (updateProductTags product resp1).entry resp2).success
        = true := by
    intro h
    subst h
    exact updSuccess _
  refine ⟨?_, ?_, ?_, ?_, hs1, hs2⟩ <;>
    obtain ⟨pid, pt, pv, pp, _ | ts⟩ := product
  · intro ts h
    exact nomatch h
  · intro ts2 h hc2
    injection h with h2
    subst h2
    have hm : tagName ∈ ts := by simpa [List.elem_eq_mem] using hc2
    simp [updEntry, hm]
  · intro ts h
    exact nomatch h
  · intro ts2 h hc2
    injection h with h2
    subst h2
    have hm : tagName ∉ ts := by simpa [List.elem_eq_mem] using hc2
    simp [updEntry, hm]
  · rfl
  · rcases hm : decide (tagName ∈ ts) with _ | _
    · have hm2 : tagName ∉ ts := of_decide_eq_false hm
      simp [updEntry, updSent, hm2]
    · have hm2 : tagName ∈ ts := of_decide_eq_true hm
      simp [updEntry, updSent, hm2]
  · rfl
  · rcases hm : decide (tagName ∈ ts) with _ | _
    · have hm2 : tagName ∉ ts := of_decide_eq_false hm
      simp [updEntry, hm2]
    · have hm2 : tagName ∈ ts := of_decide_eq_true hm
      simp [updEntry, hm2]

/-- Claim C4, witness: one concrete double update — the marker is
appended by the first call, the second call changes nothing, and both
calls succeed. -/
theorem updateProductTags_idempotent_witness :
    (updateProductTags ⟨"id1", "T", "V", "P", some ["sale"]⟩
        (UpdateResponse.accepted [])).entry.tags = some ["sale", tagName] ∧
    (updateProductTags
        (updateProductTags ⟨"id1", "T", "V", "P", some ["sale"]⟩
          (UpdateResponse.accepted [])).entry
        (UpdateResponse.accepted [])).entry =
      (updateProductTags ⟨"id1", "T", "V", "P", some ["sale"]⟩
        (UpdateResponse.accepted [])).entry ∧
    (updateProductTags ⟨"id1", "T", "V", "P", some ["sale"]⟩
        (UpdateResponse.accepted [])).success = true := by
  have h := updateProductTags_idempotent ⟨"id1", "T", "V", "P", some ["sale"]⟩
    (UpdateResponse.accepted []) (UpdateResponse.accepted [])
  exact ⟨h.2.1 ["sale"] rfl (by decide), h.2.2.2.1, h.2.2.2.2.1 rfl⟩

/-- Claim C9: the updater pushes the marker onto the existing
tags array of the entry in place, so after any call — accepted, rejected with
validation errors, or failed in transport — the in-memory tag list of
the entry contains the marker; the entry state does not depend on the
response at all, so nothing is restored on error. -/
theorem updateProductTags_mutates_in_place (product : CatalogEntry)
    (resp : UpdateResponse) (ts : List String) (h : product.tags = some ts) :
    ((updateProductTags product resp).entry.tags.getD []).contains tagName
        = true ∧
    (∀ resp2, (updateProductTags product resp2).entry =
      (updateProductTags product resp).entry) := by
  obtain ⟨pid, pt, pv, pp, ptags⟩ := product
  cases ptags with
  | none => cases h
  | some ts2 =>
    constructor
    · rcases hm : decide (tagName ∈ ts2) with _ | _
      · have hm2 : tagName ∉ ts2 := of_decide_eq_false hm
        simp [updEntry, hm2]
      · have hm2 : tagName ∈ ts2 := of_decide_eq_true hm
        simp [updEntry, hm2]
    · intro resp2
      rw [updEntry, updEntry]

/-- Claim C9, witness: after a transport-failed update the in-memory
entry already carries the marker tag. -/
theorem updateProductTags_mutates_in_place_witness :
    ((updateProductTags ⟨"id1", "T", "V", "P", some ["sale"]⟩
        (UpdateResponse.transportError "boom")).entry.tags.getD
      []).contains tagName = true :=
  (updateProductTags_mutates_in_place ⟨"id1", "T", "V", "P", some ["sale"]⟩
    (UpdateResponse.transportError "boom") ["sale"] rfl).1

/-- Claim C6: a parsed record yields a SourceRow exactly when all three
values located by case-insensitive substring header matching exist and
are non-empty, and a record that fails this test is skipped — it
contributes nothing to the derived row list that feeds the driver. -/
theorem normalizeRow_complete (record : List (String × String)) :
    ((∃ r, normalizeRow record = some r) ↔
      (∃ t, locateValue record "title" = some t ∧ t ≠ "") ∧
      (∃ v, locateValue record "vendor" = some v ∧ v ≠ "") ∧
      (∃ pt, locateValue record "type" = some pt ∧ pt ≠ "")) ∧
    (normalizeRow record = none →
      ∀ pre post, deriveRows (pre ++ record :: post) =
        deriveRows pre ++ deriveRows post) := by
  constructor
  · constructor
    · rintro ⟨r, hr⟩
      unfold normalizeRow at hr
      rcases h1 : locateValue record "title" with _ | t
      · rw [h1] at hr
        simp at hr
      rcases h2 : locateValue record "vendor" with _ | v
      · rw [h1, h2] at hr
        simp at hr
      rcases h3 : locateValue record "type" with _ | pt
      · rw [h1, h2, h3] at hr
        simp at hr
      rw [h1, h2, h3] at hr
      have hr2 : (if (t != "" && v != "" && pt != "") = true then
          some (⟨jsTrim t, jsTrim v, jsTrim pt⟩ : SourceRow) else none)
          = some r := hr
      rcases hcond : (t != "" && v != "" && pt != "")
      · rw [hcond] at hr2
        simp at hr2
      · simp only [Bool.and_eq_true, bne_iff_ne, ne_eq] at hcond
        exact ⟨⟨t, rfl, hcond.1.1⟩, ⟨v, rfl, hcond.1.2⟩, ⟨pt, rfl, hcond.2⟩⟩
    · rintro ⟨⟨t, h1, ht⟩, ⟨v, h2, hv⟩, ⟨pt, h3, hp⟩⟩
      refine ⟨⟨jsTrim t, jsTrim v, jsTrim pt⟩, ?_⟩
      unfold normalizeRow
      rw [h1, h2, h3]
      have hcond : (t != "" && v != "" && pt != "") = true := by
        simp [bne_iff_ne, ht, hv, hp]
      show (if (t != "" && v != "" && pt != "") = true then
          some (⟨jsTrim t, jsTrim v, jsTrim pt⟩ : SourceRow) else none)
          = some ⟨jsTrim t, jsTrim v, jsTrim pt⟩
      rw [hcond]
      simp
  · intro hnone pre post
    unfold deriveRows
    rw [List.filterMap_append]
    simp [hnone]

/-- Claim C6, witness: a complete record is normalized, and a record
whose title cell is empty is skipped outright, deriving no row. -/
theorem normalizeRow_complete_witness :
    (∃ r, normalizeRow [("Title", "A"), ("Vendor", "B"), ("Type", "C")]
      = some r) ∧
    deriveRows [[("Title", ""), ("Vendor", "B"), ("Type", "C")]] = [] := by
  constructor
  · exact (normalizeRow_complete _).1.mpr
      ⟨⟨"A", rfl, by decide⟩, ⟨"B", rfl, by decide⟩, ⟨"C", rfl, by decide⟩⟩
  · have h := (normalizeRow_complete
      [("Title", ""), ("Vendor", "B"), ("Type", "C")]).2 rfl [] []
    simpa using h

/-- The prefix test accepts a list extended by any suffix. -/
lemma isPrefixL_append (l m : List Char) : isPrefixL l (l ++ m) = true := by
  induction l with
  | nil => rfl
  | cons a as ih => simp [isPrefixL, ih]

/-- Removing the first occurrence of a leading prefix yields exactly the
remainder. -/
lemma replaceFirstAux_append (pre rest : List Char) :
    replaceFirstAux pre (pre ++ rest) = rest := by
  cases pre with
  | nil =>
    cases rest with
    | nil => rfl
    | cons d ds => rfl
  | cons c cs =>
    have hgoal : replaceFirstAux (c :: cs) ((c :: cs) ++ rest) =
        (if isPrefixL (c :: cs) ((c :: cs) ++ rest) = true then
          List.drop (c :: cs).length ((c :: cs) ++ rest)
        else c :: replaceFirstAux (c :: cs) (cs ++ rest)) := rfl
    rw [hgoal, if_pos (isPrefixL_append (c :: cs) rest)]
    exact List.drop_left (c :: cs) rest

/-- String-level version: stripping a literal prefix via first-occurrence
replacement. -/
lemma replaceFirst_strip (pre rest : String) :
    replaceFirst (pre ++ rest) pre = rest := by
  show String.mk (replaceFirstAux pre.data (pre ++ rest).data) = rest
  rw [String.data_append, replaceFirstAux_append]

/-- The first report table of `generateReports`, written as an explicit
conditional. -/
lemma generateReports_fst (tagged : List (CatalogEntry × SourceRow))
    (nf : List SourceRow) :
    (generateReports tagged nf).1 =
      (if tagged.length > 0 then
        some (tagged.map (fun pr =>
          { gid := replaceFirst pr.1.id gidPrefix
            title := pr.1.title
            productType := pr.1.productType
            vendor := pr.1.vendor }))
      else none) := rfl

/-- The second report table of `generateReports`, written as an explicit
conditional. -/
lemma generateReports_snd (tagged : List (CatalogEntry × SourceRow))
    (nf : List SourceRow) :
    (generateReports tagged nf).2 =
      (if nf.length > 0 then
        some (nf.map (fun product =>
          { gid := ""
            title := product.title
            productType := product.productType
            vendor := product.vendor }))
      else none) := rfl

/-- Claim C7: each report file is produced exactly when the
corresponding ledger sequence is non-empty; every not-found report row
has an empty `gid`; and every tagged ledger pair whose entry identifier
carries the service prefix contributes a tagged report row whose `gid`
is the identifier with the prefix stripped. -/
theorem generateReports_files (tagged : List (CatalogEntry × SourceRow))
    (nf : List SourceRow) :
    ((generateReports tagged nf).1.isSome ↔ tagged ≠ []) ∧
    ((generateReports tagged nf).2.isSome ↔ nf ≠ []) ∧
    (∀ rows, (generateReports tagged nf).2 = some rows →
      rows.length = nf.length ∧ ∀ r ∈ rows, r.gid = "") ∧
    (∀ rows pr rest, (generateReports tagged nf).1 = some rows →
      pr ∈ tagged → pr.1.id = gidPrefix ++ rest →
      ({ gid := rest
         title := pr.1.title
         productType := pr.1.productType
         vendor := pr.1.vendor } : ReportRow) ∈ rows) := by
  refine ⟨?_, ?_, ?_, ?_⟩
  · rw [generateReports_fst]
    cases tagged <;> simp
  · rw [generateReports_snd]
    cases nf <;> simp
  · intro rows h
    rw [generateReports_snd] at h
    cases nf with
    | nil => simp at h
    | cons a l =>
      rw [if_pos (by simp)] at h
      injection h with h2
      subst h2
      refine ⟨by simp, ?_⟩
      intro r hr
      rcases List.mem_map.mp hr with ⟨p, _, hpr⟩
      rw [← hpr]
  · intro rows pr rest h hmem hid
    rw [generateReports_fst] at h
    cases tagged with
    | nil => simp at hmem
    | cons a l =>
      rw [if_pos (by simp)] at h
      injection h with h2
      subst h2
      refine List.mem_map.mpr ⟨pr, hmem, ?_⟩
      simp [hid, replaceFirst_strip]

/-- Claim C7, witness: a single tagged pair with a prefixed identifier
produces the expected stripped report row. -/
theorem generateReports_files_witness :
    ({ gid := "42", title := "T", productType := "P", vendor := "V" } :
        ReportRow) ∈
      [({ gid := "42", title := "T", productType := "P", vendor := "V" } :
        ReportRow)] :=
  (generateReports_files
      [(⟨"gid://shopify/Product/42", "T", "V", "P", some []⟩, ⟨"T", "V", "P"⟩)]
      []).2.2.2
    [{ gid := "42", title := "T", productType := "P", vendor := "V" }]
    (⟨"gid://shopify/Product/42", "T", "V", "P", some []⟩, ⟨"T", "V", "P"⟩)
    "42" rfl (List.mem_cons_self _ _) rfl

/-- The rows the driver records as tagged, in input order, paired with
the recorded entry. -/
def taggedOf (items : List (SourceRow × RowEnv)) : List (CatalogEntry × SourceRow) :=
  items.filterMap (fun it =>
    match rowOutcome it.1 it.2 with
    | .tagged e => some (e, it.1)
    | _ => none)

/-- The rows the driver records as not found, in input order: the
not-found outcomes and the caught-error outcomes. -/
def notFoundOf (items : List (SourceRow × RowEnv)) : List SourceRow :=
  items.filterMap (fun it =>
    match rowOutcome it.1 it.2 with
    | .notFound => some it.1
    | .errored => some it.1
    | _ => none)

/-- Unfolding of one driver iteration in front of the rest of the
loop. -/
lemma runDriverFrom_cons (i : Nat) (L : Ledger) (p : SourceRow) (env : RowEnv)
    (rest : List (SourceRow × RowEnv)) :
    runDriverFrom i L ((p, env) :: rest) =
      ((runDriverFrom (i + 1) (driverStep i L p env).1 rest).1,
        (driverStep i L p env).2 ++
          (runDriverFrom (i + 1) (driverStep i L p env).1 rest).2) := by
  rcases h1 : driverStep i L p env with ⟨l1, t1⟩
  rcases h2 : runDriverFrom (i + 1) l1 rest with ⟨l2, t2⟩
  simp [runDriverFrom, h1, h2]

/-- The ledger accumulated by the driver extends the starting ledger by
the routed rows, in order. -/
lemma runDriverFrom_ledger (items : List (SourceRow × RowEnv)) :
    ∀ i L, (runDriverFrom i L items).1.tagged = L.tagged ++ taggedOf items ∧
      (runDriverFrom i L items).1.notFound = L.notFound ++ notFoundOf items := by
  induction items with
  | nil =>
    intro i L
    simp [runDriverFrom, taggedOf, notFoundOf]
  | cons item rest ih =>
    intro i L
    obtain ⟨p, env⟩ := item
    rw [runDriverFrom_cons]
    rcases ho : rowOutcome p env with e | _ | _ | _ <;>
      constructor <;>
      simp [driverStep, ho, taggedOf, notFoundOf, List.filterMap_cons,
        (ih (i + 1) _).1, (ih (i + 1) _).2]

/-- Each input row contributes to exactly one of: the tagged ledger, the
not-found ledger, or the set of tag-failed rows recorded nowhere. -/
lemma taggedOf_notFoundOf_length (items : List (SourceRow × RowEnv)) :
    (taggedOf items).length + (notFoundOf items).length +
      (items.filter
        (fun it => decide (rowOutcome it.1 it.2 = Outcome.tagFailed))).length
      = items.length := by
  induction items with
  | nil => rfl
  | cons item rest ih =>
    obtain ⟨p, env⟩ := item
    simp only [taggedOf, notFoundOf] at ih ⊢
    rcases ho : rowOutcome p env with e | _ | _ | _ <;>
      simp [List.filterMap_cons, List.filter_cons, ho] <;>
      omega

/-- A one-row run whose search finds an exact match but whose tag update
is rejected with a validation error, so the driver body reaches the
tag-failed state. -/
def tagFailedRun : List (SourceRow × RowEnv) :=
  [(⟨"T", "V", "P"⟩,
    RowEnv.normal (Except.ok [⟨"id1", "T", "V", "P", some []⟩])
      (UpdateResponse.accepted ["boom"]))]

/-- Claim C1, counterexample: in a run with one SourceRow whose match
succeeds and whose tag update fails, the row is appended to neither
ledger, so the two ledger lengths do not add up to the number of
SourceRows and the tag-failed row is not routed to `notFound`. -/
theorem ledger_completeness_counterexample :
    (runDriver tagFailedRun).1.tagged.length +
        (runDriver tagFailedRun).1.notFound.length ≠ tagFailedRun.length ∧
      (runDriver tagFailedRun).1.notFound = [] := by
  constructor
  · decide
  · rfl

/-- Claim C1 (amended): the driver ledgers collect exactly the tagged
outcomes and the not-found-or-errored outcomes in order; consequently
`tagged` and `notFound` together account for precisely the SourceRows
whose processing did not end in a failed tag update, while a row whose
match succeeds but whose tag update fails is recorded in neither
ledger. -/
theorem ledger_routing (items : List (SourceRow × RowEnv)) :
    (runDriver items).1.tagged = taggedOf items ∧
    (runDriver items).1.notFound = notFoundOf items ∧
    (runDriver items).1.tagged.length + (runDriver items).1.notFound.length +
        (items.filter
          (fun it => decide (rowOutcome it.1 it.2 = Outcome.tagFailed))).length
      = items.length := by
  have h := runDriverFrom_ledger items 0 ⟨[], []⟩
  have h1 : (runDriver items).1.tagged = taggedOf items := by
    simpa [runDriver] using h.1
  have h2 : (runDriver items).1.notFound = notFoundOf items := by
    simpa [runDriver] using h.2
  refine ⟨h1, h2, ?_⟩
  rw [h1, h2]
  exact taggedOf_notFoundOf_length items

/-- The driver body never reaches the caught-error state when the row
environment does not throw. -/
lemma rowOutcome_normal_ne_errored (p : SourceRow)
    (s : Except String (List CatalogEntry)) (u : UpdateResponse) :
    rowOutcome p (RowEnv.normal s u) ≠ Outcome.errored := by
  unfold rowOutcome
  rcases hf : findProduct p.title p.vendor p.productType s with _ | sp
  · simp [hf]
  · rcases hs : (updateProductTags sp u).success <;> simp [hf, hs]

/-- Trace of one iteration whose processing throws: the work marker only,
no pacing delay. -/
lemma driverStep_trace_throw (i : Nat) (L : Ledger) (p : SourceRow)
    (message : String) :
    (driverStep i L p (RowEnv.throws message)).2 = [Ev.work i] := rfl

/-- Trace of one non-throwing iteration: the work marker followed by the
pacing delay. -/
lemma driverStep_trace_normal (i : Nat) (L : Ledger) (p : SourceRow)
    (s : Except String (List CatalogEntry)) (u : UpdateResponse) :
    (driverStep i L p (RowEnv.normal s u)).2 = [Ev.work i, Ev.pause] := by
  rcases ho : rowOutcome p (RowEnv.normal s u) with e | _ | _ | _
  · simp [driverStep, ho]
  · simp [driverStep, ho]
  · simp [driverStep, ho]
  · exact absurd ho (rowOutcome_normal_ne_errored p s u)

/-- The number of pacing delays in a driver trace equals the number of
non-throwing rows. -/
lemma runDriverFrom_pause_count (items : List (SourceRow × RowEnv)) :
    ∀ i L, (runDriverFrom i L items).2.count Ev.pause =
      (items.filter (fun it => !RowEnv.isThrow it.2)).length := by
  induction items with
  | nil =>
    intro i L
    rfl
  | cons item rest ih =>
    intro i L
    obtain ⟨p, env⟩ := item
    rw [runDriverFrom_cons]
    rcases env with msg | ⟨s, u⟩
    · simp [driverStep_trace_throw, List.count_append, List.filter_cons,
        RowEnv.isThrow, ih (i + 1) _]
    · simp [driverStep_trace_normal, List.count_append, List.filter_cons,
        RowEnv.isThrow, ih (i + 1) _]

/-- Appending one final row to the loop appends its step trace at the
given position. -/
lemma runDriverFrom_snoc (xs : List (SourceRow × RowEnv)) :
    ∀ i L p env, (runDriverFrom i L (xs ++ [(p, env)])).2 =
      (runDriverFrom i L xs).2 ++
        (driverStep (i + xs.length) (runDriverFrom i L xs).1 p env).2 := by
  induction xs with
  | nil =>
    intro i L p env
    rw [List.nil_append, runDriverFrom_cons]
    simp [runDriverFrom]
  | cons x rest ih =>
    intro i L p env
    obtain ⟨q, enq⟩ := x
    rw [List.cons_append, runDriverFrom_cons, runDriverFrom_cons, ih]
    have hidx : i + 1 + rest.length = i + (rest.length + 1) := by omega
    simp [hidx, List.append_assoc]

/-- A one-row run whose processing throws an exception caught by the
driver. -/
def throwRun : List (SourceRow × RowEnv) :=
  [(⟨"T", "V", "P"⟩, RowEnv.throws "boom")]

/-- Claim C8, counterexample: in a one-row run whose processing throws,
the row reaches a terminal state (it is recorded as not found) yet the
trace contains no pacing delay at all — the fixed wait is skipped on the
caught-error path. -/
theorem driver_pacing_counterexample :
    (runDriver throwRun).1.notFound = [⟨"T", "V", "P"⟩] ∧
    (runDriver throwRun).2 = [Ev.work 0] ∧
    (runDriver throwRun).2.count Ev.pause = 0 := ⟨rfl, rfl, rfl⟩

/-- Claim C8 (amended): the driver waits the pacing interval after every
row that reaches its terminal state without throwing — including after
the final row — while a row whose processing throws is advanced past
without the delay; the number of delays equals the number of non-throwing
rows. -/
theorem driver_pacing (items : List (SourceRow × RowEnv)) :
    ((runDriver items).2.count Ev.pause =
      (items.filter (fun it => !RowEnv.isThrow it.2)).length) ∧
    (∀ pre p s u, items = pre ++ [(p, RowEnv.normal s u)] →
      ∃ t, (runDriver items).2 = t ++ [Ev.work pre.length, Ev.pause]) := by
  constructor
  · exact runDriverFrom_pause_count items 0 ⟨[], []⟩
  · rintro pre p s u rfl
    refine ⟨(runDriverFrom 0 ⟨[], []⟩ pre).2, ?_⟩
    show (runDriverFrom 0 ⟨[], []⟩ (pre ++ [(p, RowEnv.normal s u)])).2 = _
    rw [runDriverFrom_snoc, driverStep_trace_normal]
    simp

/-- Claim C8, witness: in a one-row non-throwing run the trace ends with
the work marker of the row followed by the pacing delay. -/
theorem driver_pacing_witness :
    ∃ t, (runDriver [(⟨"T", "V", "P"⟩,
        RowEnv.normal (Except.error "down") (UpdateResponse.accepted []))]).2 =
      t ++ [Ev.work 0, Ev.pause] :=
  (driver_pacing [(⟨"T", "V", "P"⟩,
      RowEnv.normal (Except.error "down") (UpdateResponse.accepted []))]).2
    [] ⟨"T", "V", "P"⟩ (Except.error "down") (UpdateResponse.accepted []) rfl

end ProductTagger
